import Mathlib

/-!
Shallow embedding of `adcirc2hec_wind.py` (adcirc-to-ras): the ADCIRC mesh
reader (`AdcircMesh`), the dual-format result reader (`AdcircResult`), and the
raster-output pipeline (`HecWindFile.write`): grid-axis generation, the
sanitize rule and the time-axis emission.

Conventions of the embedding:
* A text file is a list of already-tokenized numeric lines (`List (List ℚ)`);
  Python's `readline().split()` becomes `readLine`, which returns the empty
  token list at end of file (as `"".split()` does).
* Python exceptions become an explicit `PyError` value through `Except`.
  The spec's "FormatError" corresponds to the `ValueError` the source raises
  (`value_error` with the source's message).
* Python `float` arithmetic is modelled exactly over `ℚ`; where a claim is
  specifically about IEEE binary64 rounding, a separate bit-exact binary64
  model (significand/exponent pairs over `ℤ`, round to nearest, ties to even)
  is used.
* `int(...)` applied to a nonnegative quantity is truncation toward zero.
-/

/-- Decidable equality for `Except`, so concrete runs of the fallible readers
can be checked by `decide`. -/
instance {ε α : Type _} [DecidableEq ε] [DecidableEq α] :
    DecidableEq (Except ε α) := fun a b =>
  match a, b with
  | .ok x, .ok y =>
    if h : x = y then .isTrue (congrArg _ h)
    else .isFalse fun he => h (Except.ok.inj he)
  | .error x, .error y =>
    if h : x = y then .isTrue (congrArg _ h)
    else .isFalse fun he => h (Except.error.inj he)
  | .ok _, .error _ => .isFalse fun he => Except.noConfusion he
  | .error _, .ok _ => .isFalse fun he => Except.noConfusion he

/-- Python exception outcomes relevant to the translated code paths. -/
inductive PyError
  | value_error (msg : String)
  | index_error
  | zero_division_error
  deriving DecidableEq, Repr

/-- One tokenized line of a whitespace-separated numeric text file. -/
abbrev TokLine := List ℚ

/-- Python `f.readline().split()`: the next tokenized line and the rest of the
stream; at end of file, `readline` returns the empty string, whose `split()`
is the empty token list. -/
def readLine (lines : List TokLine) : TokLine × List TokLine :=
  match lines with
  | [] => ([], [])
  | l :: ls => (l, ls)

/-- Python `int(...)` on a real value: truncation toward zero. -/
def pyInt (q : ℚ) : ℤ :=
  if 0 ≤ q then ⌊q⌋ else ⌈q⌉

/-- Python `str.split(" ")` restricted to the single-space separator used by
the source, written structurally so it evaluates in the kernel. -/
def splitSpaceAux (cs : List Char) (cur : List Char) : List (List Char) :=
  match cs with
  | [] => [cur.reverse]
  | c :: rest =>
    if c = ' ' then cur.reverse :: splitSpaceAux rest []
    else splitSpaceAux rest (c :: cur)

/-- Python `s.split(" ")`. -/
def pySplitSpace (s : String) : List String :=
  (splitSpaceAux s.toList []).map fun cs => String.mk cs

/-- Python `" ".join(l)`. -/
def pyJoinSpace (l : List String) : String :=
  String.intercalate " " l

/-- Python `s[-3:]`: the last three characters (or the whole string when it is
shorter). -/
def suffix3 (s : String) : String :=
  s.takeRight 3

/-! ### Bit-exact IEEE binary64 model

Python floats are IEEE binary64 with round-to-nearest, ties-to-even.  A double
is represented as a significand/exponent pair `(m, e) : ℤ × ℤ` denoting
`m * 2 ^ e`; `roundDouble n d` rounds the rational `n / d` to the nearest
double.  Subnormals and overflow are outside the magnitude range exercised
here and are not modelled.  Everything is `ℤ` arithmetic so that concrete
computations reduce in the kernel. -/

/-- A double: value `m * 2 ^ e`. -/
abbrev Dbl := ℤ × ℤ

/-- `2 ^ k` as an integer. -/
def ipow2 (k : ℕ) : ℤ := 2 ^ k

/-- Whether `2 ^ k ≤ a / d`, for `a, d > 0` and `k : ℤ`. -/
def lePow2 (a d : ℤ) (k : ℤ) : Bool :=
  if 0 ≤ k then d * ipow2 k.toNat ≤ a else d ≤ a * ipow2 (-k).toNat

/-- Fueled search for `⌊log₂ (a / d)⌋`, for `a, d > 0`; the fuel far exceeds
the binary64 exponent range. -/
def flog2Aux (fuel : ℕ) (a d : ℤ) (k : ℤ) : ℤ :=
  match fuel with
  | 0 => k
  | f + 1 =>
    if lePow2 a d k then
      if lePow2 a d (k + 1) then flog2Aux f a d (k + 1) else k
    else flog2Aux f a d (k - 1)

/-- `⌊log₂ (a / d)⌋` for `a, d > 0`. -/
def flog2 (a d : ℤ) : ℤ := flog2Aux 3000 a d 0

/-- Round `a / d` (with `a ≥ 0`, `d > 0`) to the nearest 53-bit significand,
ties to even: the result `(m, e)` satisfies `2 ^ 52 ≤ m < 2 ^ 53` unless
`a = 0`. -/
def roundDoublePos (a d : ℤ) : Dbl :=
  let k := flog2 a d
  let e := k - 52
  let A := a * ipow2 (if 0 ≤ e then 0 else (-e).toNat)
  let B := d * ipow2 (if 0 ≤ e then e.toNat else 0)
  let q := A / B
  let r := A % B
  let m :=
    if 2 * r < B then q
    else if B < 2 * r then q + 1
    else if q % 2 = 0 then q else q + 1
  if m = ipow2 53 then (ipow2 52, e + 1) else (m, e)

/-- Round the rational `n / d` (any sign of `n`, `d > 0`) to the nearest
binary64 value. -/
def roundDouble (n d : ℤ) : Dbl :=
  if n = 0 then (0, 0)
  else if n < 0 then
    let p := roundDoublePos (-n) d
    (-p.1, p.2)
  else roundDoublePos n d

/-- Exact difference of two doubles as a fraction with positive denominator. -/
def dblSubExact (x y : Dbl) : ℤ × ℤ :=
  let e := min x.2 y.2
  let n := x.1 * ipow2 (x.2 - e).toNat - y.1 * ipow2 (y.2 - e).toNat
  if 0 ≤ e then (n * ipow2 e.toNat, 1) else (n, ipow2 (-e).toNat)

/-- IEEE subtraction: exact difference, then one rounding. -/
def fsub (x y : Dbl) : Dbl :=
  let p := dblSubExact x y
  roundDouble p.1 p.2

/-- IEEE division: exact quotient, then one rounding. -/
def fdiv (x y : Dbl) : Dbl :=
  let e := x.2 - y.2
  let n := x.1 * ipow2 (if 0 ≤ e then e.toNat else 0)
  let d := y.1 * ipow2 (if 0 ≤ e then 0 else (-e).toNat)
  if d < 0 then roundDouble (-n) (-d) else roundDouble n d

/-- IEEE addition: exact sum, then one rounding. -/
def fadd (x y : Dbl) : Dbl :=
  let e := min x.2 y.2
  let n := x.1 * ipow2 (x.2 - e).toNat + y.1 * ipow2 (y.2 - e).toNat
  if 0 ≤ e then roundDouble (n * ipow2 e.toNat) 1 else roundDouble n (ipow2 (-e).toNat)

/-- Python `int()` on a double: truncation toward zero. -/
def dblTrunc (x : Dbl) : ℤ :=
  if 0 ≤ x.2 then x.1 * ipow2 x.2.toNat
  else if 0 ≤ x.1 then x.1 / ipow2 (-x.2).toNat
  else -((-x.1) / ipow2 (-x.2).toNat)

/-- The rational value denoted by a double. -/
def dblVal (x : Dbl) : ℚ := (x.1 : ℚ) * 2 ^ x.2

/-! ### `AdcircMesh` (adcirc2hec_wind.py lines 41–220) -/

/-- The mesh data stored by `AdcircMesh`: node coordinates, element
connectivity (0-based node indices) and nodal elevation. -/
structure Mesh where
  node_x : List ℚ
  node_y : List ℚ
  elements : List (ℤ × ℤ × ℤ)
  elevation : List ℚ
  deriving DecidableEq, Repr

/-- The named fields `AdcircMesh.__read_mesh_netcdf` reads from an indexed
(netCDF) mesh container. -/
structure NetcdfMeshData where
  x : List ℚ
  y : List ℚ
  element : List (ℤ × ℤ × ℤ)
  depth : List ℚ

/-- `AdcircMesh.__read_mesh_netcdf`: coordinates and depth are taken directly;
element connectivity has 1 subtracted from every node id. -/
def read_mesh_netcdf (ds : NetcdfMeshData) : Mesh :=
  { node_x := ds.x
    node_y := ds.y
    elements := ds.element.map fun t => (t.1 - 1, t.2.1 - 1, t.2.2 - 1)
    elevation := ds.depth }

/-- The node loop of `AdcircMesh.__read_mesh_ascii`: `n` lines, each giving
`(id, x, y, elevation)` at token positions 1, 2, 3 (position 0, the node id,
is never read); a missing token is an `IndexError`. Returns the coordinate
and elevation lists in read order plus the remaining stream. -/
def read_mesh_nodes (n : ℕ) (lines : List TokLine) :
    Except PyError (List ℚ × List ℚ × List ℚ × List TokLine) :=
  match n with
  | 0 => .ok ([], [], [], lines)
  | m + 1 =>
    let (line, rest) := readLine lines
    match line.get? 1, line.get? 2, line.get? 3 with
    | some x, some y, some z =>
      match read_mesh_nodes m rest with
      | .ok (xs, ys, zs, rem) => .ok (x :: xs, y :: ys, z :: zs, rem)
      | .error e => .error e
    | _, _, _ => .error .index_error

/-- The element loop of `AdcircMesh.__read_mesh_ascii`: `n` lines; the stored
element is `(int(line[2]) - 1, int(line[3]) - 1, int(line[4]) - 1)` — token
positions 2, 3, 4, each converted from a 1-based node id to 0-based. -/
def read_mesh_elements (n : ℕ) (lines : List TokLine) :
    Except PyError (List (ℤ × ℤ × ℤ) × List TokLine) :=
  match n with
  | 0 => .ok ([], lines)
  | m + 1 =>
    let (line, rest) := readLine lines
    match line.get? 2, line.get? 3, line.get? 4 with
    | some a, some b, some c =>
      match read_mesh_elements m rest with
      | .ok (es, rem) => .ok ((pyInt a - 1, pyInt b - 1, pyInt c - 1) :: es, rem)
      | .error e => .error e
    | _, _, _ => .error .index_error

/-- `AdcircMesh.__read_mesh_ascii`: line 1 is read and discarded; line 2
yields `n_elements` from token 0 and `n_nodes` from token 1; then `n_nodes`
node lines and `n_elements` element lines are consumed. -/
def read_mesh_ascii (lines : List TokLine) : Except PyError Mesh :=
  let (_title, r1) := readLine lines
  let (metadata, r2) := readLine r1
  match metadata.get? 0, metadata.get? 1 with
  | some ne, some nn =>
    let n_nodes := (pyInt nn).toNat
    let n_elements := (pyInt ne).toNat
    match read_mesh_nodes n_nodes r2 with
    | .error e => .error e
    | .ok (xs, ys, zs, r3) =>
      match read_mesh_elements n_elements r3 with
      | .error e => .error e
      | .ok (es, _r4) =>
        .ok { node_x := xs, node_y := ys, elements := es, elevation := zs }
  | _, _ => .error .index_error

/-- `AdcircMesh.__read_mesh`: dispatch on the filename's last three
characters; `".nc"` selects the indexed (netCDF) reader and every other
suffix falls through to the sequential-text reader. -/
def read_mesh (filename : String) (ascii_content : List TokLine)
    (nc_content : NetcdfMeshData) : Except PyError Mesh :=
  if suffix3 filename = ".nc" then .ok (read_mesh_netcdf nc_content)
  else read_mesh_ascii ascii_content

/-- Modelled from the spec (§4.1, claim C7's reading): the element loop as the
spec's words describe it — each element line is `(id, n1, n2, n3)`, the node
ids at token positions 1, 2, 3, converted from 1-based to 0-based.  Used only
to compare the spec's description against the source's `read_mesh_elements`. -/
def read_mesh_elements_spec (n : ℕ) (lines : List TokLine) :
    Except PyError (List (ℤ × ℤ × ℤ) × List TokLine) :=
  match n with
  | 0 => .ok ([], lines)
  | m + 1 =>
    let (line, rest) := readLine lines
    match line.get? 1, line.get? 2, line.get? 3 with
    | some a, some b, some c =>
      match read_mesh_elements_spec m rest with
      | .ok (es, rem) => .ok ((pyInt a - 1, pyInt b - 1, pyInt c - 1) :: es, rem)
      | .error e => .error e
    | _, _, _ => .error .index_error

/-- Modelled from the spec: `read_mesh_ascii` with the spec's element-line
layout, for the C7 comparison. -/
def read_mesh_ascii_spec (lines : List TokLine) : Except PyError Mesh :=
  let (_title, r1) := readLine lines
  let (metadata, r2) := readLine r1
  match metadata.get? 0, metadata.get? 1 with
  | some ne, some nn =>
    let n_nodes := (pyInt nn).toNat
    let n_elements := (pyInt ne).toNat
    match read_mesh_nodes n_nodes r2 with
    | .error e => .error e
    | .ok (xs, ys, zs, r3) =>
      match read_mesh_elements_spec n_elements r3 with
      | .error e => .error e
      | .ok (es, _r4) =>
        .ok { node_x := xs, node_y := ys, elements := es, elevation := zs }
  | _, _ => .error .index_error

/-! ### `AdcircResult` (adcirc2hec_wind.py lines 223–457) -/

/-- The channel-name allow-list `AdcircResult.__VARIABLE_NAMES`, in its fixed
priority order. -/
def VARIABLE_NAMES : List String := ["zeta", "zeta_max", "windx", "windy"]

/-- `AdcircResult.__check_file_format`: `".nc"` suffix means the indexed
(netCDF) form, anything else the sequential (ascii) form. -/
inductive FileFormat
  | netcdf
  | ascii
  deriving DecidableEq, Repr

/-- `AdcircResult.__check_file_format` on a filename. -/
def check_file_format (filename : String) : FileFormat :=
  if suffix3 filename = ".nc" then .netcdf else .ascii

/-- The reader state `AdcircResult.__initialize_ascii` builds for the
sequential form: the counts from header line 2, the derived time step `dt`,
and the stream positioned just after header line 2 (the peeked first record
header was pushed back with `seek`). -/
structure AsciiReader where
  n_time_steps : ℤ
  n_datasets : ℤ
  n_nodes : ℤ
  dt : ℚ
  stream : List TokLine
  deriving DecidableEq, Repr

/-- `AdcircResult.__initialize_ascii`: line 1 discarded; line 2 gives
`n_time_steps` (token 0), `n_nodes` (token 1), `n_step_per_output` (token 3)
and `n_datasets` (token 4); the first record header (peeked, then seeked
back) gives `output_time_0` (token 0) and `output_step_0` (token 1);
`dt = n_step_per_output * (output_time_0 / output_step_0)`. -/
def initialize_ascii (lines : List TokLine) : Except PyError AsciiReader :=
  let (_l1, r1) := readLine lines
  let (metadata, r2) := readLine r1
  let (first_record_header, _r3) := readLine r2
  match metadata.get? 0, metadata.get? 4, metadata.get? 3, metadata.get? 1 with
  | some nts, some nds, some nspo, some nn =>
    match first_record_header.get? 0, first_record_header.get? 1 with
    | some t0, some s0 =>
      if s0 = 0 then .error .zero_division_error
      else
        .ok { n_time_steps := pyInt nts
              n_datasets := pyInt nds
              n_nodes := pyInt nn
              dt := nspo * (t0 / s0)
              stream := r2 }
    | _, _ => .error .index_error
  | _, _, _, _ => .error .index_error

/-- The parts of an indexed (netCDF) result container that
`AdcircResult` touches: the variable-name table, the `time` variable with its
units string, the `time` and `node` dimension sizes, and the per-variable
data (`values v i` is variable `v` sliced at time index `i`; `values_flat v`
is the unsliced read used when there is a single time step). -/
structure NetcdfDataset where
  var_names : List String
  time : List ℚ
  time_units : String
  time_size : ℕ
  node_size : ℕ
  values : String → ℕ → List ℚ
  values_flat : String → List ℚ

/-- The reader state `AdcircResult.__initialize_netcdf` builds. -/
structure NetcdfReader where
  var_list : List String
  n_datasets : ℕ
  n_time_steps : ℕ
  n_nodes : ℕ
  ref_time : String

/-- `AdcircResult.__initialize_netcdf`: walk the allow-list in order,
appending each name present among the container's variables; the channel
count is the length of the resulting list. -/
def initialize_netcdf (ds : NetcdfDataset) : NetcdfReader :=
  let vars := VARIABLE_NAMES.foldl
    (fun acc vv => if vv ∈ ds.var_names then acc ++ [vv] else acc) []
  { var_list := vars
    n_datasets := vars.length
    n_time_steps := ds.time_size
    n_nodes := ds.node_size
    ref_time := ds.time_units }

/-- A constructed `AdcircResult`: one of the two polymorphic variants. -/
inductive Reader
  | netcdf (ds : NetcdfDataset) (info : NetcdfReader)
  | ascii (r : AsciiReader)

/-- `AdcircResult.get_time`: the netCDF form reads the `time` variable at the
index; the ascii form returns `index * dt`. -/
def get_time (rd : Reader) (index : ℕ) : ℚ :=
  match rd with
  | .netcdf ds _info => ds.time.getD index 0
  | .ascii r => (index : ℚ) * r.dt

/-- A fixed-shape two-dimensional `numpy` array: a shape plus an entry
function (`entry j i` is `data[j, i]`).  Mutation is functional update; the
translated loops never index outside the shape. -/
structure NpArray where
  rows : ℕ
  cols : ℕ
  entry : ℕ → ℕ → ℚ

/-- `np.full((rows, cols), v)`. -/
def npFull (rows cols : ℕ) (v : ℚ) : NpArray :=
  { rows := rows, cols := cols, entry := fun _ _ => v }

/-- `data[j, i] = v`. -/
def setEntry (m : NpArray) (j i : ℕ) (v : ℚ) : NpArray :=
  { m with entry := fun j' i' => if j' = j ∧ i' = i then v else m.entry j' i' }

/-- The list-of-rows contents of an array, for concrete checks and for
stating which values a filled array holds. -/
def NpArray.toLists (m : NpArray) : List (List ℚ) :=
  (List.range m.rows).map fun j => (List.range m.cols).map fun i => m.entry j i

/-- The inner loop of `AdcircResult.__get_ascii`: for `j` in
`[j0, j0 + cnt)`, `data[j, i] = float(line[j + 1])`; a missing token is an
`IndexError`. -/
def fill_row (line : TokLine) (i : ℕ) (j0 : ℕ) (cnt : ℕ)
    (m : NpArray) : Except PyError NpArray :=
  match cnt with
  | 0 => .ok m
  | c + 1 =>
    match line.get? (j0 + 1) with
    | none => .error .index_error
    | some v => fill_row line i (j0 + 1) c (setEntry m j0 i v)

/-- The outer loop of `AdcircResult.__get_ascii`: read `cnt` data lines
starting at column `i`, filling all `nd` channel rows from each; returns the
filled array (or the first error) together with the advanced stream. -/
def fill_block (nd : ℕ) (i : ℕ) (cnt : ℕ) (lines : List TokLine)
    (m : NpArray) : Except PyError NpArray × List TokLine :=
  match cnt with
  | 0 => (.ok m, lines)
  | c + 1 =>
    let (line, rest) := readLine lines
    match fill_row line i 0 nd m with
    | .error e => (.error e, rest)
    | .ok m2 => fill_block nd (i + 1) c rest m2

/-- The shared data-block read of `AdcircResult.__get_ascii`, after the
header has fixed the row count `n` and the fill value `v`:
`np.full((n_datasets, n), v)` overwritten column by column from the next `n`
data lines. -/
def read_block (r : AsciiReader) (n : ℕ) (v : ℚ) (rest : List TokLine) :
    Except PyError NpArray × AsciiReader :=
  let res := fill_block r.n_datasets.toNat 0 n rest
    (npFull r.n_datasets.toNat n v)
  (res.1, { r with stream := res.2 })

/-- `AdcircResult.__get_ascii`: read the next block header; 2 tokens mean a
dense block of `n_nodes` rows with default fill `0.0`; 4 tokens mean a sparse
block of `int(header[2])` rows with default fill `float(header[3])`; any
other token count raises `ValueError("Unknown header format")` (the spec's
FormatError) with no data read. -/
def get_ascii (r : AsciiReader) :
    Except PyError NpArray × AsciiReader :=
  let (header, rest) := readLine r.stream
  if header.length = 2 then
    let n := r.n_nodes.toNat
    let res := fill_block r.n_datasets.toNat 0 n rest
      (npFull r.n_datasets.toNat n 0)
    (res.1, { r with stream := res.2 })
  else if header.length = 4 then
    let n := (pyInt (header.getD 2 0)).toNat
    let default_value := header.getD 3 0
    let res := fill_block r.n_datasets.toNat 0 n rest
      (npFull r.n_datasets.toNat n default_value)
    (res.1, { r with stream := res.2 })
  else
    (.error (.value_error "Unknown header format"), { r with stream := rest })

/-- `AdcircResult.__get_netcdf`: one row per selected variable, sliced at the
time index when the file has more than one step. -/
def get_netcdf (ds : NetcdfDataset) (info : NetcdfReader) (index : ℕ) :
    NpArray :=
  { rows := info.n_datasets
    cols := info.n_nodes
    entry := fun i j =>
      let v := info.var_list.getD i ""
      (if 1 < info.n_time_steps then ds.values v index
       else ds.values_flat v).getD j 0 }

/-- `AdcircResult.get`: the netCDF form addresses the step by `index`; the
ascii form ignores `index` and consumes the next block sequentially. -/
def get (rd : Reader) (index : ℕ) :
    Except PyError NpArray × Reader :=
  match rd with
  | .netcdf ds info => (.ok (get_netcdf ds info index), .netcdf ds info)
  | .ascii r =>
    let p := get_ascii r
    (p.1, .ascii p.2)

/-- A sequence of successive `get` calls with the given index arguments,
returning the snapshots in call order. -/
def run (rd : Reader) (indices : List ℕ) :
    List (Except PyError NpArray) :=
  match indices with
  | [] => []
  | i :: is =>
    let p := get rd i
    p.1 :: run p.2 is

/-! ### `HecWindFile.write` (adcirc2hec_wind.py lines 478–641) -/

/-- `np.linspace(a, b, num)` with default `endpoint=True`, in exact
arithmetic: `num` evenly spaced samples from `a` to `b` inclusive (a single
sample is `a`; zero samples give the empty axis). -/
def linspace (a b : ℚ) (num : ℕ) : List ℚ :=
  if num = 0 then []
  else if num = 1 then [a]
  else (List.range num).map fun i : ℕ => a + (b - a) * (i : ℚ) / ((num : ℚ) - 1)

/-- The sample count the source passes to `np.linspace`:
`int((max - min) / resolution + 1)`, in exact arithmetic. -/
def num_points (mn mx res : ℚ) : ℤ :=
  pyInt ((mx - mn) / res + 1)

/-- One output grid axis, in exact arithmetic:
`np.linspace(min, max, num=int((max - min) / resolution + 1))`. -/
def grid_axis (mn mx res : ℚ) : List ℚ :=
  linspace mn mx (num_points mn mx res).toNat

/-- The sample count as the source actually computes it, in IEEE binary64
arithmetic: the bounds and resolution are doubles and every operation
rounds. -/
def num_points_float (mn mx res : Dbl) : ℤ :=
  dblTrunc (fadd (fdiv (fsub mx mn) res) (roundDouble 1 1))

/-- A value of one interpolated grid cell: a finite float (exact rational) or
one of the IEEE specials the sanitize step targets (the interpolator yields
NaN outside mesh coverage). -/
inductive CellValue
  | finite (q : ℚ)
  | nan
  | pinf
  | ninf
  deriving DecidableEq, Repr

/-- The elementwise comparison `value <= -100`: NaN and +inf compare false,
-inf compares true. -/
def leNeg100 (v : CellValue) : Bool :=
  match v with
  | .finite q => q ≤ -100
  | .nan => false
  | .pinf => false
  | .ninf => true

/-- First sanitize step, `result[result <= -100] = 0.0`. -/
def maskNeg100 (v : CellValue) : CellValue :=
  if leNeg100 v then .finite 0 else v

/-- Second sanitize step,
`np.nan_to_num(result, nan=0.0, posinf=0.0, neginf=0.0)`. -/
def nanToNum (v : CellValue) : CellValue :=
  match v with
  | .finite q => .finite q
  | _ => .finite 0

/-- The per-cell sanitize rule, in the source's order. -/
def sanitize (v : CellValue) : CellValue :=
  nanToNum (maskNeg100 v)

/-- The sanitize step applied to a grid-cell value array. -/
def sanitize_grid (xs : List CellValue) : List CellValue :=
  xs.map sanitize

/-- The reference-time text `HecWindFile.write` extracts from the source time
units: `" ".join(units.split(" ")[-2:])` — the last two space-separated
tokens rejoined. -/
def reference_time_text (units : String) : String :=
  let toks := pySplitSpace units
  pyJoinSpace (toks.drop (toks.length - 2))

/-- The time axis the write loop emits: for each step `i`,
`time_var[i] = dataset.get_time(i) / 60.0` (simulation seconds converted to
minutes since the reference instant). -/
def write_time_axis (rd : Reader) (n_steps : ℕ) : List ℚ :=
  (List.range n_steps).map fun i => get_time rd i / 60

/-! ### Helper lemmas -/

/-- Pointwise idempotence of the sanitize rule: one pass leaves a finite
value that is `0` or greater than `-100`, which the second pass fixes. -/
theorem sanitize_idem_cell (v : CellValue) : sanitize (sanitize v) = sanitize v := by
  cases v with
  | finite q =>
    by_cases h : q ≤ -100 <;>
      simp [sanitize, maskNeg100, nanToNum, leNeg100, h]
  | nan => simp [sanitize, maskNeg100, nanToNum, leNeg100]
  | pinf => simp [sanitize, maskNeg100, nanToNum, leNeg100]
  | ninf => simp [sanitize, maskNeg100, nanToNum, leNeg100]

/-- The allow-list walk of `__initialize_netcdf` is a filter of the registry,
keeping the registry's order. -/
theorem foldl_filter_append (keys : List String) :
    ∀ (l acc : List String),
      l.foldl (fun acc vv => if vv ∈ keys then acc ++ [vv] else acc) acc
        = acc ++ l.filter (fun vv => vv ∈ keys) := by
  intro l
  induction l with
  | nil => intro acc; simp
  | cons hd tl ih =>
    intro acc
    by_cases h : hd ∈ keys
    · simp [List.foldl_cons, h, ih, List.filter_cons]
    · simp [List.foldl_cons, h, ih, List.filter_cons]

/-- Closed form of the inner `__get_ascii` loop: when the line has tokens at
positions `j0 + 1 … j0 + cnt`, the loop succeeds and writes
`line[j + 1]` into entry `(j, i)` for every `j` in `[j0, j0 + cnt)`, leaving
every other entry unchanged. -/
theorem fill_row_ok (line : TokLine) (i : ℕ) :
    ∀ (cnt j0 : ℕ) (m : NpArray), (cnt = 0 ∨ j0 + cnt < line.length) →
    ∃ m', fill_row line i j0 cnt m = .ok m' ∧ m'.rows = m.rows ∧
      m'.cols = m.cols ∧
      ∀ j' i', m'.entry j' i' =
        if j0 ≤ j' ∧ j' < j0 + cnt ∧ i' = i then line.getD (j' + 1) 0
        else m.entry j' i' := by
  intro cnt
  induction cnt with
  | zero =>
    intro j0 m _
    refine ⟨m, rfl, rfl, rfl, ?_⟩
    intro j' i'
    rw [if_neg]
    omega
  | succ c ih =>
    intro j0 m hc
    have hlen : j0 + 1 < line.length := by omega
    have hget : line.get? (j0 + 1) = some (line.getD (j0 + 1) 0) := by
      rw [List.get?_eq_getElem?, List.getElem?_eq_getElem hlen,
        List.getD_eq_getElem _ _ hlen]
    have hc' : c = 0 ∨ (j0 + 1) + c < line.length := by omega
    obtain ⟨m', hm', hrows, hcols, hdesc⟩ := ih (j0 + 1) (setEntry m j0 i (line.getD (j0 + 1) 0)) hc'
    refine ⟨m', ?_, by simpa [setEntry] using hrows, by simpa [setEntry] using hcols, ?_⟩
    · rw [fill_row, hget]
      exact hm'
    · intro j' i'
      rw [hdesc j' i']
      by_cases h1 : j0 + 1 ≤ j' ∧ j' < j0 + 1 + c ∧ i' = i
      · rw [if_pos h1, if_pos (by omega : j0 ≤ j' ∧ j' < j0 + (c + 1) ∧ i' = i)]
      · rw [if_neg h1]
        by_cases h2 : j' = j0 ∧ i' = i
        · simp only [setEntry, if_pos h2]
          rw [if_pos (by omega : j0 ≤ j' ∧ j' < j0 + (c + 1) ∧ i' = i), h2.1]
        · simp only [setEntry, if_neg h2]
          rw [if_neg (by omega : ¬(j0 ≤ j' ∧ j' < j0 + (c + 1) ∧ i' = i))]

/-- Closed form of the outer `__get_ascii` loop: when each of the next `cnt`
data lines has a token at every needed channel position, the loop succeeds,
consumes exactly `cnt` lines, and writes token `j + 1` of the `t`-th consumed
line into entry `(j, i + t)` for every channel `j < nd`, leaving all other
entries unchanged. -/
theorem fill_block_ok (nd : ℕ) :
    ∀ (cnt i : ℕ) (lines : List TokLine) (m : NpArray),
    (∀ t < cnt, nd = 0 ∨ nd < (lines.getD t []).length) →
    ∃ m', fill_block nd i cnt lines m = (.ok m', lines.drop cnt) ∧
      m'.rows = m.rows ∧ m'.cols = m.cols ∧
      ∀ j' p, m'.entry j' p =
        if j' < nd ∧ i ≤ p ∧ p < i + cnt then
          (lines.getD (p - i) []).getD (j' + 1) 0
        else m.entry j' p := by
  intro cnt
  induction cnt with
  | zero =>
    intro i lines m _
    refine ⟨m, rfl, rfl, rfl, ?_⟩
    intro j' p
    rw [if_neg]
    omega
  | succ c ih =>
    intro i lines m hl
    have hline : (readLine lines).1 = lines.getD 0 [] := by
      cases lines <;> simp [readLine]
    have hrest : (readLine lines).2 = lines.tail := by
      cases lines <;> simp [readLine]
    have hrow : nd = 0 ∨ 0 + nd < (lines.getD 0 []).length := by
      rcases hl 0 (by omega) with h | h
      · exact .inl h
      · exact .inr (by omega)
    obtain ⟨m2, hm2, hrows2, hcols2, hdesc2⟩ :=
      fill_row_ok (lines.getD 0 []) i nd 0 m hrow
    have htail : ∀ t, lines.tail.getD t [] = lines.getD (t + 1) [] := by
      intro t
      cases lines <;> simp
    have hl' : ∀ t < c, nd = 0 ∨ nd < (lines.tail.getD t []).length := by
      intro t ht
      rw [htail t]
      exact hl (t + 1) (by omega)
    obtain ⟨m', hm', hrows', hcols', hdesc'⟩ := ih (i + 1) lines.tail m2 hl'
    refine ⟨m', ?_, hrows'.trans hrows2, hcols'.trans hcols2, ?_⟩
    · rcases lines with _ | ⟨l, ls⟩
      · show (match fill_row ([] : TokLine) i 0 nd m with
          | .error e => ((.error e : Except PyError NpArray), ([] : List TokLine))
          | .ok m2 => fill_block nd (i + 1) c [] m2) = _
        rw [show fill_row ([] : TokLine) i 0 nd m = .ok m2 from hm2]
        simpa using hm'
      · show (match fill_row l i 0 nd m with
          | .error e => ((.error e : Except PyError NpArray), ls)
          | .ok m2 => fill_block nd (i + 1) c ls m2) = _
        rw [show fill_row l i 0 nd m = .ok m2 from hm2]
        simpa using hm'
    · intro j' p
      rw [hdesc' j' p]
      by_cases h1 : j' < nd ∧ i + 1 ≤ p ∧ p < i + 1 + c
      · rw [if_pos h1, htail, if_pos (by omega : j' < nd ∧ i ≤ p ∧ p < i + (c + 1))]
        have : p - (i + 1) + 1 = p - i := by omega
        rw [this]
      · rw [if_neg h1, hdesc2 j' p]
        by_cases h2 : 0 ≤ j' ∧ j' < 0 + nd ∧ p = i
        · rw [if_pos h2, if_pos (by omega : j' < nd ∧ i ≤ p ∧ p < i + (c + 1))]
          have : p - i = 0 := by omega
          rw [this]
        · rw [if_neg h2, if_neg (by omega : ¬(j' < nd ∧ i ≤ p ∧ p < i + (c + 1)))]

/-- `get?` at an in-range position is `some` of the `getD` value. -/
theorem get?_eq_some_getD {α : Type _} (l : List α) (d : α) (k : ℕ)
    (h : k < l.length) : l.get? k = some (l.getD k d) := by
  rw [List.get?_eq_getElem?, List.getElem?_eq_getElem h,
    List.getD_eq_getElem _ _ h]

/-- Closed form of the node loop: reading exactly as many lines as there are
node lines, each with at least 4 tokens, yields the coordinate and elevation
columns in order and leaves the rest of the stream. -/
theorem read_mesh_nodes_ok :
    ∀ (nodeLines rest : List TokLine),
    (∀ l ∈ nodeLines, 4 ≤ l.length) →
    read_mesh_nodes nodeLines.length (nodeLines ++ rest) =
      .ok (nodeLines.map (fun l => l.getD 1 0),
           nodeLines.map (fun l => l.getD 2 0),
           nodeLines.map (fun l => l.getD 3 0), rest) := by
  intro nodeLines
  induction nodeLines with
  | nil =>
    intro rest _
    simp [read_mesh_nodes]
  | cons l ls ih =>
    intro rest h
    have hl := h l (by simp)
    have hg1 := get?_eq_some_getD l 0 1 (by omega)
    have hg2 := get?_eq_some_getD l 0 2 (by omega)
    have hg3 := get?_eq_some_getD l 0 3 (by omega)
    show (match l.get? 1, l.get? 2, l.get? 3 with
      | some x, some y, some z =>
        match read_mesh_nodes ls.length (ls ++ rest) with
        | Except.ok (xs, ys, zs, rem) => Except.ok (x :: xs, y :: ys, z :: zs, rem)
        | Except.error e => Except.error e
      | _, _, _ => Except.error PyError.index_error) = _
    rw [hg1, hg2, hg3, ih rest (fun x hx => h x (by simp [hx]))]
    simp

/-- Closed form of the element loop: reading exactly as many lines as there
are element lines, each with at least 5 tokens, stores for each line the
integer tokens at positions 2, 3, 4 minus one, in order. -/
theorem read_mesh_elements_ok :
    ∀ (eleLines rest : List TokLine),
    (∀ l ∈ eleLines, 5 ≤ l.length) →
    read_mesh_elements eleLines.length (eleLines ++ rest) =
      .ok (eleLines.map (fun l =>
            (pyInt (l.getD 2 0) - 1, pyInt (l.getD 3 0) - 1,
             pyInt (l.getD 4 0) - 1)), rest) := by
  intro eleLines
  induction eleLines with
  | nil =>
    intro rest _
    simp [read_mesh_elements]
  | cons l ls ih =>
    intro rest h
    have hl := h l (by simp)
    have hg2 := get?_eq_some_getD l 0 2 (by omega)
    have hg3 := get?_eq_some_getD l 0 3 (by omega)
    have hg4 := get?_eq_some_getD l 0 4 (by omega)
    show (match l.get? 2, l.get? 3, l.get? 4 with
      | some a, some b, some c =>
        match read_mesh_elements ls.length (ls ++ rest) with
        | Except.ok (es, rem) => Except.ok ((pyInt a - 1, pyInt b - 1, pyInt c - 1) :: es, rem)
        | Except.error e => Except.error e
      | _, _, _ => Except.error PyError.index_error) = _
    rw [hg2, hg3, hg4, ih rest (fun x hx => h x (by simp [hx]))]
    simp

/-- `getD` through a map over `List.range`. -/
theorem map_range_getD {α : Type _} (f : ℕ → α) (n i : ℕ) (d : α)
    (h : i < n) : ((List.range n).map f).getD i d = f i := by
  rw [List.getD_eq_getElem _ _ (by simpa using h)]
  simp

/-- The axis produced by `linspace` has exactly the requested number of
samples. -/
theorem linspace_length (a b : ℚ) (n : ℕ) : (linspace a b n).length = n := by
  rcases n with _ | _ | n <;> simp [linspace]

/-- The sample at position `i` of a multi-point `linspace` axis. -/
theorem linspace_getD (a b : ℚ) (n i : ℕ) (h2 : 2 ≤ n) (hi : i < n) :
    (linspace a b n).getD i 0 = a + (b - a) * i / ((n : ℚ) - 1) := by
  have hn0 : n ≠ 0 := by omega
  have hn1 : n ≠ 1 := by omega
  rw [linspace, if_neg hn0, if_neg hn1, map_range_getD _ n i 0 hi]

/-- For a positive span, the sample count equals
`floor((max - min) / resolution) + 1`. -/
theorem num_points_eq_floor (mn mx res : ℚ) (hlt : mn < mx) (hres : 0 < res) :
    num_points mn mx res = ⌊(mx - mn) / res⌋ + 1 := by
  have hq : 0 < (mx - mn) / res := div_pos (by linarith) hres
  rw [num_points, pyInt, if_pos (by linarith)]
  rw [show (mx - mn) / res + 1 = (mx - mn) / res + (1 : ℤ) by norm_num]
  rw [Int.floor_add_int]

/-! ### Claim theorems -/

/-- C1, counterexample: the claim says an unrecognized mesh suffix such as
`.xyz` raises a FormatError before any geometry is read.  In the source,
`AdcircMesh.__read_mesh` only tests for the `.nc` suffix and sends every
other filename to the sequential-text reader: constructing the mesh from a
well-formed sequential-text file named `mesh.xyz` succeeds with no error of
any kind. -/
theorem C1_counterexample :
    suffix3 "mesh.xyz" ≠ ".nc" ∧
    read_mesh "mesh.xyz"
        [[0], [1, 3], [1, 0, 0, 5], [2, 1, 0, 5], [3, 0, 1, 5], [1, 3, 1, 2, 3]]
        ⟨[], [], [], []⟩
      = .ok ⟨[0, 1, 0], [0, 0, 1], [(0, 1, 2)], [5, 5, 5]⟩ := by
  exact ⟨by decide, by decide⟩

/-- C1, amended: a mesh filename whose last three characters are not `.nc`
is dispatched unconditionally to the sequential-text reader; no suffix-based
FormatError exists on this path. -/
theorem C1_mesh_suffix_fallthrough (filename : String)
    (ascii_content : List TokLine) (nc_content : NetcdfMeshData)
    (h : suffix3 filename ≠ ".nc") :
    read_mesh filename ascii_content nc_content = read_mesh_ascii ascii_content := by
  rw [read_mesh, if_neg h]

/-- Witness for C1 at the concrete filename `mesh.xyz`. -/
theorem C1_witness :
    suffix3 "mesh.xyz" ≠ ".nc" ∧
    read_mesh "mesh.xyz" [[0], [1, 1], [1, 7, 8, 9], [1, 3, 1, 1, 1]]
        ⟨[], [], [], []⟩
      = read_mesh_ascii [[0], [1, 1], [1, 7, 8, 9], [1, 3, 1, 1, 1]] :=
  ⟨by decide,
   C1_mesh_suffix_fallthrough "mesh.xyz"
     [[0], [1, 1], [1, 7, 8, 9], [1, 3, 1, 1, 1]] ⟨[], [], [], []⟩ (by decide)⟩

/-- C4: the sanitize step (`≤ -100 ↦ 0`, then `NaN/±inf ↦ 0`) is idempotent
on every grid-cell value array. -/
theorem C4_sanitize_idempotent (xs : List CellValue) :
    sanitize_grid (sanitize_grid xs) = sanitize_grid xs := by
  induction xs with
  | nil => rfl
  | cons v vs ih =>
    show sanitize (sanitize v) :: sanitize_grid (sanitize_grid vs)
      = sanitize v :: sanitize_grid vs
    rw [sanitize_idem_cell v, ih]

/-- Witness for C4 at a concrete array holding a sentinel value, a NaN, an
infinity and an ordinary value. -/
theorem C4_witness :
    sanitize_grid (sanitize_grid
        [.finite (-150), .nan, .pinf, .ninf, .finite 7])
      = sanitize_grid [.finite (-150), .nan, .pinf, .ninf, .finite 7] :=
  C4_sanitize_idempotent [.finite (-150), .nan, .pinf, .ninf, .finite 7]

/-- C6: for every indexed-form container, the selected channel list is the
fixed-priority allow-list registry filtered to the variable names present,
and the reported channel count is the length of that intersection. -/
theorem C6_netcdf_channel_allowlist (ds : NetcdfDataset) :
    (initialize_netcdf ds).var_list
        = VARIABLE_NAMES.filter (fun vv => vv ∈ ds.var_names) ∧
      (initialize_netcdf ds).n_datasets
        = (VARIABLE_NAMES.filter (fun vv => vv ∈ ds.var_names)).length := by
  have h := foldl_filter_append ds.var_names VARIABLE_NAMES []
  constructor
  · simpa [initialize_netcdf] using h
  · simp only [initialize_netcdf]
    rw [h]
    simp

/-- Witness for C6 at a container holding `zeta`, `windx` and an unrelated
name: the selection keeps registry order and drops the stranger. -/
theorem C6_witness :
    (initialize_netcdf
        ⟨["windx", "zeta", "junk"], [], "", 0, 0, fun _ _ => [], fun _ => []⟩).var_list
      = ["zeta", "windx"] ∧
    (initialize_netcdf
        ⟨["windx", "zeta", "junk"], [], "", 0, 0, fun _ _ => [], fun _ => []⟩).n_datasets
      = 2 := by
  have h := C6_netcdf_channel_allowlist
    ⟨["windx", "zeta", "junk"], [], "", 0, 0, fun _ _ => [], fun _ => []⟩
  exact ⟨h.1.trans (by decide), h.2.trans (by decide)⟩

/-- C10: for the sequential form, `get` ignores its index argument — two
equal-length index sequences fed to successive `get` calls over the same
underlying stream produce identical snapshot sequences. -/
theorem C10_sequential_get_ignores_index (r : AsciiReader)
    (xs ys : List ℕ) (h : xs.length = ys.length) :
    run (.ascii r) xs = run (.ascii r) ys := by
  induction xs generalizing r ys with
  | nil =>
    cases ys with
    | nil => rfl
    | cons y yt => simp at h
  | cons x xt ih =>
    cases ys with
    | nil => simp at h
    | cons y yt =>
      show (get_ascii r).1 :: run (.ascii (get_ascii r).2) xt
        = (get_ascii r).1 :: run (.ascii (get_ascii r).2) yt
      rw [ih (get_ascii r).2 yt (by simpa using h)]

/-- Witness for C10: two different index sequences of length two over one
concrete two-block stream. -/
theorem C10_witness :
    run (.ascii ⟨2, 1, 1, 1, [[10, 1], [1, 7], [10, 2], [1, 8]]⟩) [0, 1]
      = run (.ascii ⟨2, 1, 1, 1, [[10, 1], [1, 7], [10, 2], [1, 8]]⟩) [9, 4] :=
  C10_sequential_get_ignores_index ⟨2, 1, 1, 1, [[10, 1], [1, 7], [10, 2], [1, 8]]⟩
    [0, 1] [9, 4] rfl

/-- C3: the next-snapshot fetch dispatches on the block-header shape — 2
fields select a dense read of `n_nodes` rows with implicit fill `0.0`; 4
fields select a sparse read whose row count and fill value come from header
fields 3 and 4; any other shape yields the fatal FormatError
(`ValueError("Unknown header format")`) with no data rows consumed and no
partial snapshot. -/
theorem C3_block_header_dispatch (r : AsciiReader) :
    ((readLine r.stream).1.length = 2 →
      get_ascii r = read_block r r.n_nodes.toNat 0 (readLine r.stream).2) ∧
    ((readLine r.stream).1.length = 4 →
      get_ascii r = read_block r (pyInt ((readLine r.stream).1.getD 2 0)).toNat
        ((readLine r.stream).1.getD 3 0) (readLine r.stream).2) ∧
    ((readLine r.stream).1.length ≠ 2 → (readLine r.stream).1.length ≠ 4 →
      get_ascii r =
        (.error (.value_error "Unknown header format"),
         { r with stream := (readLine r.stream).2 })) := by
  rcases hrl : readLine r.stream with ⟨hd, rst⟩
  simp only [hrl]
  refine ⟨?_, ?_, ?_⟩
  · intro h2
    simp only [get_ascii, hrl, read_block]
    rw [if_pos h2]
  · intro h4
    simp only [get_ascii, hrl, read_block]
    rw [if_neg (show ¬hd.length = 2 by omega), if_pos h4]
  · intro h2 h4
    simp only [get_ascii, hrl]
    rw [if_neg h2, if_neg h4]

/-- Witness for C3 at a concrete reader whose next header has two fields. -/
theorem C3_witness :
    get_ascii ⟨2, 1, 1, 1, [[10, 1], [1, 7]]⟩
      = read_block ⟨2, 1, 1, 1, [[10, 1], [1, 7]]⟩ 1 0 [[1, 7]] :=
  (C3_block_header_dispatch ⟨2, 1, 1, 1, [[10, 1], [1, 7]]⟩).1 rfl

/-- C5: for the sequential form, `dt` is `(time0 / step0) * steps_per_output`
built from header line 2 and the peeked first record header, and
`get_time i = i * dt` for every step index. -/
theorem C5_sequential_dt (l1 metadata frh : TokLine) (rest : List TokLine)
    (hmeta : 5 ≤ metadata.length) (hfrh : 2 ≤ frh.length)
    (hs0 : frh.getD 1 0 ≠ 0) :
    ∃ r, initialize_ascii (l1 :: metadata :: frh :: rest) = .ok r ∧
      r.dt = (frh.getD 0 0 / frh.getD 1 0) * metadata.getD 3 0 ∧
      (∀ i : ℕ, get_time (.ascii r) i = (i : ℚ) * r.dt) ∧
      r.stream = frh :: rest ∧
      r.n_time_steps = pyInt (metadata.getD 0 0) ∧
      r.n_nodes = pyInt (metadata.getD 1 0) ∧
      r.n_datasets = pyInt (metadata.getD 4 0) := by
  have hg0 := get?_eq_some_getD metadata 0 0 (by omega)
  have hg1 := get?_eq_some_getD metadata 0 1 (by omega)
  have hg3 := get?_eq_some_getD metadata 0 3 (by omega)
  have hg4 := get?_eq_some_getD metadata 0 4 (by omega)
  have hf0 := get?_eq_some_getD frh 0 0 (by omega)
  have hf1 := get?_eq_some_getD frh 0 1 (by omega)
  refine ⟨AsciiReader.mk (pyInt (metadata.getD 0 0)) (pyInt (metadata.getD 4 0))
    (pyInt (metadata.getD 1 0))
    ((metadata.getD 3 0) * (frh.getD 0 0 / frh.getD 1 0)) (frh :: rest),
    ?_, ?_, ?_, rfl, rfl, rfl, rfl⟩
  · show (match metadata.get? 0, metadata.get? 4, metadata.get? 3, metadata.get? 1 with
      | some nts, some nds, some nspo, some nn =>
        match frh.get? 0, frh.get? 1 with
        | some t0, some s0 =>
          if s0 = 0 then Except.error PyError.zero_division_error
          else
            Except.ok (AsciiReader.mk (pyInt nts) (pyInt nds) (pyInt nn)
              (nspo * (t0 / s0)) (frh :: rest))
        | _, _ => Except.error PyError.index_error
      | _, _, _, _ => Except.error PyError.index_error) = _
    rw [hg0, hg4, hg3, hg1, hf0, hf1]
    simp only [if_neg hs0]
  · show (metadata.getD 3 0) * (frh.getD 0 0 / frh.getD 1 0)
      = (frh.getD 0 0 / frh.getD 1 0) * metadata.getD 3 0
    ring
  · intro i
    rfl

/-- Witness for C5: a header declaring 5 steps, 3 nodes, 2 channels, 2 steps
per output, and a first record header `(1800, 900)`, giving `dt = 4`. -/
theorem C5_witness :
    5 ≤ ([5, 3, 0, 2, 2] : TokLine).length ∧
    2 ≤ ([1800, 900] : TokLine).length ∧
    ([1800, 900] : TokLine).getD 1 0 ≠ 0 ∧
    ∃ r, initialize_ascii [[9], [5, 3, 0, 2, 2], [1800, 900], [1, 7, 8]] = .ok r ∧
      r.dt = (([1800, 900] : TokLine).getD 0 0 / ([1800, 900] : TokLine).getD 1 0)
        * (([5, 3, 0, 2, 2] : TokLine).getD 3 0) := by
  refine ⟨by decide, by decide, by decide, ?_⟩
  obtain ⟨r, h1, h2, -⟩ :=
    C5_sequential_dt [9] [5, 3, 0, 2, 2] [1800, 900] [[1, 7, 8]]
      (by decide) (by decide) (by decide)
  exact ⟨r, h1, h2⟩

/-- C7, counterexample: element lines carry five fields `(id, m, n1, n2, n3)`
in the source, which reads tokens 2–4; on a file whose element line has the
claim's four-field shape `(id, n1, n2, n3)` the source raises an IndexError
instead of parsing it, while the spec-modelled reader succeeds; and on a
five-field line the two readers store different elements. -/
theorem C7_counterexample :
    read_mesh_ascii
        [[0], [1, 3], [1, 0, 0, 5], [2, 1, 0, 5], [3, 0, 1, 5], [1, 2, 3, 1]]
      = .error .index_error ∧
    read_mesh_ascii_spec
        [[0], [1, 3], [1, 0, 0, 5], [2, 1, 0, 5], [3, 0, 1, 5], [1, 2, 3, 1]]
      = .ok ⟨[0, 1, 0], [0, 0, 1], [(1, 2, 0)], [5, 5, 5]⟩ ∧
    read_mesh_ascii
        [[0], [1, 3], [1, 0, 0, 5], [2, 1, 0, 5], [3, 0, 1, 5], [1, 3, 1, 2, 3]]
      = .ok ⟨[0, 1, 0], [0, 0, 1], [(0, 1, 2)], [5, 5, 5]⟩ ∧
    read_mesh_ascii_spec
        [[0], [1, 3], [1, 0, 0, 5], [2, 1, 0, 5], [3, 0, 1, 5], [1, 3, 1, 2, 3]]
      = .ok ⟨[0, 1, 0], [0, 0, 1], [(2, 0, 1)], [5, 5, 5]⟩ := by
  exact ⟨by decide, by decide, by decide, by decide⟩

/-- C7, amended: the sequential-text mesh read ignores line 1; line 2 gives
`(nele, nnode, …)`; the next `nnode` lines give `(id, x, y, elevation)`; the
next `nele` lines give `(id, m, n1, n2, n3)` — the node ids sit in fields
2–4 (the second field, the per-element vertex count, is skipped) and each is
converted from 1-based to 0-based. -/
theorem C7_mesh_ascii_layout (title meta : TokLine)
    (nodeLines eleLines rest : List TokLine)
    (hm : 2 ≤ meta.length)
    (hnn : (pyInt (meta.getD 1 0)).toNat = nodeLines.length)
    (hne : (pyInt (meta.getD 0 0)).toNat = eleLines.length)
    (hnl : ∀ l ∈ nodeLines, 4 ≤ l.length)
    (hel : ∀ l ∈ eleLines, 5 ≤ l.length) :
    read_mesh_ascii (title :: meta :: (nodeLines ++ eleLines ++ rest)) =
      .ok { node_x := nodeLines.map fun l => l.getD 1 0
            node_y := nodeLines.map fun l => l.getD 2 0
            elements := eleLines.map fun l =>
              (pyInt (l.getD 2 0) - 1, pyInt (l.getD 3 0) - 1,
               pyInt (l.getD 4 0) - 1)
            elevation := nodeLines.map fun l => l.getD 3 0 } := by
  have hg0 := get?_eq_some_getD meta 0 0 (by omega)
  have hg1 := get?_eq_some_getD meta 0 1 (by omega)
  show (match meta.get? 0, meta.get? 1 with
    | some ne, some nn =>
      match read_mesh_nodes (pyInt nn).toNat (nodeLines ++ eleLines ++ rest) with
      | Except.error e => Except.error e
      | Except.ok (xs, ys, zs, r3) =>
        match read_mesh_elements (pyInt ne).toNat r3 with
        | Except.error e => Except.error e
        | Except.ok (es, _r4) =>
          Except.ok (Mesh.mk xs ys es zs)
    | _, _ => Except.error PyError.index_error) = _
  rw [hg0, hg1]
  show (match read_mesh_nodes (pyInt (meta.getD 1 0)).toNat
      (nodeLines ++ eleLines ++ rest) with
    | Except.error e => Except.error e
    | Except.ok (xs, ys, zs, r3) =>
      match read_mesh_elements (pyInt (meta.getD 0 0)).toNat r3 with
      | Except.error e => Except.error e
      | Except.ok (es, _r4) => Except.ok (Mesh.mk xs ys es zs)) = _
  rw [hnn, hne, List.append_assoc,
    read_mesh_nodes_ok nodeLines (eleLines ++ rest) hnl]
  show (match read_mesh_elements eleLines.length (eleLines ++ rest) with
    | Except.error e => Except.error e
    | Except.ok (es, _r4) =>
      Except.ok (Mesh.mk (nodeLines.map fun l : TokLine => l.getD 1 0)
        (nodeLines.map fun l : TokLine => l.getD 2 0) es
        (nodeLines.map fun l : TokLine => l.getD 3 0))) = _
  rw [read_mesh_elements_ok eleLines rest hel]

/-- Witness for C7 at a concrete three-node, one-element file. -/
theorem C7_witness :
    read_mesh_ascii
        [[9], [1, 3], [1, 0, 0, 5], [2, 1, 0, 5], [3, 0, 1, 5], [1, 3, 3, 1, 2]]
      = .ok { node_x := ([[1, 0, 0, 5], [2, 1, 0, 5], [3, 0, 1, 5]].map
                fun l : TokLine => l.getD 1 0)
              node_y := ([[1, 0, 0, 5], [2, 1, 0, 5], [3, 0, 1, 5]].map
                fun l : TokLine => l.getD 2 0)
              elements := ([[1, 3, 3, 1, 2]].map fun l : TokLine =>
                (pyInt (l.getD 2 0) - 1, pyInt (l.getD 3 0) - 1,
                 pyInt (l.getD 4 0) - 1))
              elevation := ([[1, 0, 0, 5], [2, 1, 0, 5], [3, 0, 1, 5]].map
                fun l : TokLine => l.getD 3 0) } :=
  C7_mesh_ascii_layout [9] [1, 3] [[1, 0, 0, 5], [2, 1, 0, 5], [3, 0, 1, 5]]
    [[1, 3, 3, 1, 2]] [] (by decide) (by decide) (by decide)
    (by decide) (by decide)

/-- C8: each emitted time-axis value is the step's simulation time divided by
60 — minutes since the reference instant; a 3600-second snapshot emits 60.0,
and the reference instant is the last two tokens of the source units string
(`2022-09-19 06:00:00`). -/
theorem C8_time_axis_minutes (rd : Reader) (n i : ℕ) (h : i < n) :
    (write_time_axis rd n).getD i 0 = get_time rd i / 60 ∧
    (get_time rd i = 3600 → (write_time_axis rd n).getD i 0 = 60) ∧
    reference_time_text "seconds since 2022-09-19 06:00:00"
      = "2022-09-19 06:00:00" := by
  have hax : (write_time_axis rd n).getD i 0 = get_time rd i / 60 :=
    map_range_getD _ n i 0 h
  refine ⟨hax, ?_, by decide⟩
  intro h36
  rw [hax, h36]
  norm_num

/-- Witness for C8 at an indexed-form reader whose single step sits at 3600
simulation seconds. -/
theorem C8_witness :
    (0 : ℕ) < 1 ∧
    (write_time_axis
        (.netcdf ⟨["windx"], [3600], "seconds since 2022-09-19 06:00:00", 1, 1,
          fun _ _ => [], fun _ => []⟩
          (initialize_netcdf ⟨["windx"], [3600], "seconds since 2022-09-19 06:00:00",
            1, 1, fun _ _ => [], fun _ => []⟩)) 1).getD 0 0
      = get_time
          (.netcdf ⟨["windx"], [3600], "seconds since 2022-09-19 06:00:00", 1, 1,
            fun _ _ => [], fun _ => []⟩
            (initialize_netcdf ⟨["windx"], [3600], "seconds since 2022-09-19 06:00:00",
              1, 1, fun _ _ => [], fun _ => []⟩)) 0 / 60 := by
  refine ⟨by decide, ?_⟩
  exact (C8_time_axis_minutes _ 1 0 (by decide)).1

/-- C9: a 4-field (sparse) block header declaring `k` value rows yields a
snapshot whose column count is exactly `k` — independent of the mesh's full
node count — and each data row's leading node-id token (position 0) is
ignored: the value of channel `j` at column `p` is token `j + 1` of the
`p`-th data row, columns filled consecutively in read order. -/
theorem C9_sparse_block_columns (r : AsciiReader) (t s kq fq : ℚ)
    (rest : List TokLine)
    (hstream : r.stream = [t, s, kq, fq] :: rest)
    (hl : ∀ idx < (pyInt kq).toNat,
      r.n_datasets.toNat = 0 ∨ r.n_datasets.toNat < (rest.getD idx []).length) :
    ∃ m, (get_ascii r).1 = .ok m ∧
      m.rows = r.n_datasets.toNat ∧
      m.cols = (pyInt kq).toNat ∧
      ∀ j p, j < r.n_datasets.toNat → p < (pyInt kq).toNat →
        m.entry j p = (rest.getD p []).getD (j + 1) 0 := by
  obtain ⟨m', hfb, hrows, hcols, hdesc⟩ :=
    fill_block_ok r.n_datasets.toNat (pyInt kq).toNat 0 rest
      (npFull r.n_datasets.toNat (pyInt kq).toNat fq) hl
  refine ⟨m', ?_, ?_, ?_, ?_⟩
  · simp only [get_ascii, hstream, readLine]
    rw [if_neg (show ¬([t, s, kq, fq] : TokLine).length = 2 by simp),
      if_pos (show ([t, s, kq, fq] : TokLine).length = 4 by simp)]
    simp only [List.getD_cons_succ, List.getD_cons_zero]
    rw [hfb]
  · rw [hrows]
    rfl
  · rw [hcols]
    rfl
  · intro j p hj hp
    rw [hdesc j p, if_pos ⟨hj, Nat.zero_le p, by omega⟩,
      Nat.sub_zero]

/-- Witness for C9: a sparse header declaring 2 rows on a reader whose mesh
has 99 nodes; the snapshot has 2 columns and ignores the node ids 7 and 9. -/
theorem C9_witness :
    (⟨5, 2, 99, 4, [[1800, 900, 2, -99], [7, 10, 20], [9, 30, 40]]⟩ :
        AsciiReader).stream
      = [[1800, 900, 2, -99]] ++ [[7, 10, 20], [9, 30, 40]] ∧
    ∃ m, (get_ascii ⟨5, 2, 99, 4,
        [[1800, 900, 2, -99], [7, 10, 20], [9, 30, 40]]⟩).1 = .ok m ∧
      m.rows = (2 : ℤ).toNat ∧
      m.cols = (pyInt (2 : ℚ)).toNat ∧
      ∀ j p, j < (2 : ℤ).toNat → p < (pyInt (2 : ℚ)).toNat →
        m.entry j p
          = (([[7, 10, 20], [9, 30, 40]] : List TokLine).getD p []).getD (j + 1) 0 := by
  refine ⟨rfl, ?_⟩
  exact C9_sparse_block_columns
    ⟨5, 2, 99, 4, [[1800, 900, 2, -99], [7, 10, 20], [9, 30, 40]]⟩
    1800 900 2 (-99) [[7, 10, 20], [9, 30, 40]] rfl (by decide)

/-- C2, counterexample: the claim's second example asserts that with IEEE
floating-point rounding included, bounds `(-95, -87.9)` at resolution `0.1`
yield `72` axis points.  In binary64 arithmetic
`(-87.9 - (-95)) / 0.1 + 1` evaluates to just under 72 and `int(...)`
truncates it to `71`.  The claim's blanket "includes both bounds" also fails
whenever the resolution exceeds the span: bounds `(0, 1/2)` at resolution `1`
produce the single-point axis `[0]`, which omits the upper bound. -/
theorem C2_counterexample :
    num_points_float (roundDouble (-95) 1) (roundDouble (-879) 10)
        (roundDouble 1 10) = 71 ∧
    (71 : ℤ) ≠ 72 ∧
    (1 / 2 : ℚ) ∉ grid_axis 0 (1 / 2) 1 := by
  refine ⟨by decide, by decide, ?_⟩
  have h32 : ((1 : ℚ) / 2 - 0) / 1 + 1 = 3 / 2 := by norm_num
  have hnp : num_points 0 (1 / 2) 1 = 1 := by
    rw [num_points, h32, pyInt, if_pos (by norm_num)]
    rw [show ⌊(3 / 2 : ℚ)⌋ = 1 by norm_num [Int.floor_eq_iff]]
  have hax : grid_axis 0 (1 / 2) 1 = [0] := by
    rw [grid_axis, hnp]
    rfl
  rw [hax]
  norm_num

/-- C2, amended: in exact arithmetic the generated axis has
`floor((max - min) / resolution) + 1` points; when that count is at least 2
the axis starts at the lower bound, ends at the upper bound, and is evenly
spaced; bounds `(0, 1)` at resolution `0.5` give `[0, 0.5, 1]`; but under the
source's IEEE binary64 evaluation, bounds `(-95, -87.9)` at resolution `0.1`
give 71 points, not the 72 of the exact formula. -/
theorem C2_grid_axis (mn mx res : ℚ) (hlt : mn < mx) (hres : 0 < res) :
    num_points mn mx res = ⌊(mx - mn) / res⌋ + 1 ∧
    (grid_axis mn mx res).length = (num_points mn mx res).toNat ∧
    (2 ≤ (num_points mn mx res).toNat →
      (grid_axis mn mx res).getD 0 0 = mn ∧
      (grid_axis mn mx res).getD ((num_points mn mx res).toNat - 1) 0 = mx ∧
      ∀ i : ℕ, i + 1 < (num_points mn mx res).toNat →
        (grid_axis mn mx res).getD (i + 1) 0 - (grid_axis mn mx res).getD i 0
          = (mx - mn) / (((num_points mn mx res).toNat : ℚ) - 1)) ∧
    grid_axis 0 1 (1 / 2) = [0, 1 / 2, 1] ∧
    num_points_float (roundDouble (-95) 1) (roundDouble (-879) 10)
      (roundDouble 1 10) = 71 := by
  refine ⟨num_points_eq_floor mn mx res hlt hres, linspace_length mn mx _, ?_, ?_, by decide⟩
  · intro h2
    set n := (num_points mn mx res).toNat with hn
    have hne : ((n : ℚ) - 1) ≠ 0 := by
      have : (2 : ℚ) ≤ (n : ℚ) := by exact_mod_cast h2
      intro hc
      nlinarith
    refine ⟨?_, ?_, ?_⟩
    · rw [grid_axis, ← hn, linspace_getD mn mx n 0 h2 (by omega)]
      simp
    · rw [grid_axis, ← hn, linspace_getD mn mx n (n - 1) h2 (by omega)]
      have hcast : ((n - 1 : ℕ) : ℚ) = (n : ℚ) - 1 := by
        have : 1 ≤ n := by omega
        push_cast [this]
        ring
      rw [hcast, mul_div_assoc, div_self hne]
      ring
    · intro i hi
      rw [grid_axis, ← hn, linspace_getD mn mx n (i + 1) h2 hi,
        linspace_getD mn mx n i h2 (by omega)]
      push_cast
      field_simp
      ring
  · have h3 : ((1 : ℚ) - 0) / (1 / 2) + 1 = 3 := by norm_num
    have hnp : num_points 0 1 (1 / 2) = 3 := by
      rw [num_points, h3, pyInt, if_pos (by norm_num)]
      norm_num
    rw [grid_axis, hnp, show ((3 : ℤ).toNat) = 3 from rfl, linspace,
      if_neg (by omega), if_neg (by omega),
      show List.range 3 = [0, 1, 2] from rfl]
    norm_num

/-- Witness for C2 at bounds `(0, 1)` and resolution `1/2`. -/
theorem C2_witness :
    (0 : ℚ) < 1 ∧ (0 : ℚ) < 1 / 2 ∧
    (grid_axis 0 1 (1 / 2)).length = (num_points 0 1 (1 / 2)).toNat := by
  refine ⟨by norm_num, by norm_num, ?_⟩
  exact (C2_grid_axis 0 1 (1 / 2) (by norm_num) (by norm_num)).2.1
